import Mathlib

/-!
Shallow embedding of `pkg/certstorage/certstorage.go` from gateway-mt.

The package implements certmagic's `Storage` interface on top of Google
Cloud Storage.  We model:

  * Go `error` values as an inductive `GoErr` mirroring the `errs` package
    (class wrapping via `Error.Wrap`, `errs.Combine`, `Error.New` messages,
    and the sentinel errors `gcsops.ErrNotFound` / `fs.ErrNotExist`);
  * strings as `List Char` (so `strings.Cut` / `strings.TrimSuffix` become
    structural list functions that proofs can unfold);
  * the external collaborators (`gcsops.Client`, `gcslock.NewMutex`,
    `Mutex.Lock` / `Mutex.Unlock`, `time.Parse`) as oracles: structures of
    functions, or explicit parameters, since their code is outside this
    package and the adapter only forwards to them;
  * the lock-handle cache (`locks map[string]*gcslock.Mutex` guarded by
    `mu sync.Mutex`) as explicit state, with each `Lock`/`Unlock` call also
    emitting a trace of events (`mu.Lock`, `mu.Unlock`, external calls) so
    that claims about the scope of the exclusive section are statable.
-/

deriving instance DecidableEq for Except

namespace Certstorage

/-- Go error values, as produced and inspected by `certstorage.go`:
`notFound` is the sentinel `gcsops.ErrNotFound`, `errNotExist` is
`fs.ErrNotExist`, `wrapped` is `Error.Wrap` (the package error class),
`combined` is `errs.Combine` of two non-nil errors, `newMsg` is
`Error.New` with a formatted message, and `other` stands for any other
opaque backend error. -/
inductive GoErr where
  | notFound : GoErr
  | errNotExist : GoErr
  | wrapped : GoErr → GoErr
  | combined : GoErr → GoErr → GoErr
  | newMsg : List Char → GoErr
  | other : List Char → GoErr
deriving DecidableEq

/-- Models `Error.Wrap` on a possibly-nil error: `errs.Class.Wrap` returns
nil when given nil, and otherwise wraps. -/
def wrapOpt : Option GoErr → Option GoErr
  | none => none
  | some e => some (.wrapped e)

/-- Models `errs.Combine` restricted to two arguments: nil operands are
dropped; two non-nil errors are grouped. -/
def combineOpt : Option GoErr → Option GoErr → Option GoErr
  | none, none => none
  | some a, none => some a
  | none, some b => some b
  | some a, some b => some (.combined a b)

/-- Models `errs.Is(err, gcsops.ErrNotFound)`: unwraps wrapping layers and
looks for the sentinel (in a combined error, either branch counts). -/
def isNotFound : GoErr → Bool
  | .notFound => true
  | .wrapped e => isNotFound e
  | .combined a b => isNotFound a || isNotFound b
  | _ => false

/-- Models `strings.Cut(s, "/")`: the part before the first separator, the
part after it, and whether a separator was found (Go returns `(s, "", false)`
when not found; here the middle component is `[]` in that case, matching
Go's empty `after`). -/
def cutSlash : List Char → List Char × List Char × Bool
  | [] => ([], [], false)
  | c :: r =>
      if c = '/' then ([], r, true)
      else
        let p := cutSlash r
        (c :: p.1, p.2.1, p.2.2)

/-- Models `strings.TrimSuffix(s, "/")`: removes one trailing separator if
present, otherwise returns the string unchanged. -/
def trimSuffixSlash (cs : List Char) : List Char :=
  match cs.reverse with
  | '/' :: r => r.reverse
  | _ => cs

/-- The bucket/key-prefix computation at the top of `NewGCS`:
`bucket, prefix, found := strings.Cut(path, "/"); if found { prefix =
strings.TrimSuffix(prefix, "/") + "/" }`. -/
def bucketAndPfx (path : List Char) : List Char × List Char :=
  let c := cutSlash path
  (c.1, if c.2.2 then trimSuffixSlash c.2.1 ++ ['/'] else c.2.1)

/-- Result of `gcsops.Client.Download`: a read-closer, modelled by the
outcome of `io.ReadAll` on it (payload bytes) together with the error
returned by `Close`. -/
structure ReadCloser where
  readAll : Except GoErr (List Nat)
  closeErr : Option GoErr

/-- The external `gcsops.Client` collaborator, as used by `certstorage.go`:
each method is an oracle deciding, per bucket and mapped key, what the
backend returns.  `statHdrs` yields the header lookup function
(`headers.Get`, which returns the empty string for an absent header). -/
structure Client where
  download : List Char → List Char → Except GoErr ReadCloser
  delete : List Char → List Char → Option GoErr
  statHdrs : List Char → List Char → Except GoErr (List Char → List Char)
  upload : List Char → List Char → List Nat → Option GoErr
  testPermissions : List Char → Option GoErr

/-- The `GCS` struct of `certstorage.go`, minus the logger and the two
mutable lock-cache fields (`locks`, `mu`), which are modelled separately as
explicit state.  `pfx` models the Go field `prefix`. -/
structure GCS where
  bucket : List Char
  pfx : List Char
  client : Client

/-- Events of the construction path `NewGCS`: building the client from the
credentials, and probing bucket permissions. -/
inductive InitEvent where
  | clientConstruct : InitEvent
  | permProbe : List Char → InitEvent
deriving DecidableEq

/-- Models `NewGCS(ctx, logger, jsonKey, path)`: computes bucket and prefix,
builds the client (`gcsops.NewClient`, an oracle given as `nc`), then runs
`TestPermissions` against the bucket; each failure aborts with a wrapped
error.  Also returns the trace of external construction calls made. -/
def newGCS (path : List Char) (nc : Except GoErr Client) :
    List InitEvent × Except GoErr GCS :=
  let bp := bucketAndPfx path
  match nc with
  | .error e => ([.clientConstruct], .error (.wrapped e))
  | .ok c =>
      match c.testPermissions bp.1 with
      | some e => ([.clientConstruct, .permProbe bp.1], .error (.wrapped e))
      | none =>
          ([.clientConstruct, .permProbe bp.1],
           .ok { bucket := bp.1, pfx := bp.2, client := c })

/-- The lock-handle cache state: the Go fields `locks map[string]*gcslock.Mutex`
(here a partial map from name to a mutex-instance identifier) and a counter
allocating fresh identifiers, so that reuse of one instance is expressible. -/
structure LockCache where
  locks : List Char → Option Nat
  nextId : Nat

/-- Events emitted by `Lock`/`Unlock`: taking and releasing `gcs.mu`, the
call to `gcslock.NewMutex` with the fully-qualified name, and the calls to
`Mutex.Lock` (acquire) and `Mutex.Unlock` (release) on an instance. -/
inductive LockEvent where
  | muLock : LockEvent
  | muUnlock : LockEvent
  | newMutex : List Char → LockEvent
  | acquire : Nat → LockEvent
  | release : Nat → LockEvent
deriving DecidableEq

/-- Oracles for the external `gcslock` collaborator: whether `NewMutex`
fails for a fully-qualified name (`none` = success), and the errors returned
by `Mutex.Lock` / `Mutex.Unlock` on a given instance. -/
structure LockEnv where
  constructErr : List Char → Option GoErr
  acquireRes : Nat → Option GoErr
  releaseRes : Nat → Option GoErr

/-- Models `GCS.Lock(ctx, name)`: take `gcs.mu`; look up `name` in the
cache; on a miss call `gcslock.NewMutex` (while `mu` is held) with name
`gcs.prefix + name` — on construction failure release `mu` and return the
wrapped error, otherwise store the fresh instance; release `mu`; finally
call `lock.Lock(ctx)` on the resolved instance and return its wrapped
result.  Returns the event trace, the new cache state and the error. -/
def GCS.lockOp (g : GCS) (env : LockEnv) (st : LockCache) (name : List Char) :
    List LockEvent × LockCache × Option GoErr :=
  match st.locks name with
  | some id =>
      ([.muLock, .muUnlock, .acquire id], st, wrapOpt (env.acquireRes id))
  | none =>
      let fq := g.pfx ++ name
      match env.constructErr fq with
      | some e => ([.muLock, .newMutex fq, .muUnlock], st, some (.wrapped e))
      | none =>
          let id := st.nextId
          ([.muLock, .newMutex fq, .muUnlock, .acquire id],
           { locks := fun n => if n = name then some id else st.locks n,
             nextId := st.nextId + 1 },
           wrapOpt (env.acquireRes id))

/-- Models `GCS.Unlock(ctx, name)`: take `gcs.mu`; look up `name`; if
absent, release `mu` and return `Error.New("mutex for %s not exists", name)`;
otherwise release `mu` and return the wrapped result of `lock.Unlock(ctx)`. -/
def unlockOp (env : LockEnv) (st : LockCache) (name : List Char) :
    List LockEvent × LockCache × Option GoErr :=
  match st.locks name with
  | none =>
      ([.muLock, .muUnlock], st,
       some (.newMsg ("mutex for ".toList ++ name ++ " not exists".toList)))
  | some id =>
      ([.muLock, .muUnlock, .release id], st, wrapOpt (env.releaseRes id))

/-- Whether an event is a call to the external `gcslock` service. -/
def isExtCall : LockEvent → Bool
  | .newMutex _ => true
  | .acquire _ => true
  | .release _ => true
  | _ => false

/-- The external calls of a trace that happen while `gcs.mu` is held
(`held` tracks the state of `mu` coming in). -/
def extWhileHeld : Bool → List LockEvent → List LockEvent
  | _, [] => []
  | _, .muLock :: r => extWhileHeld true r
  | _, .muUnlock :: r => extWhileHeld false r
  | held, e :: r => (if held && isExtCall e then [e] else []) ++ extWhileHeld held r

/-- Checks that a trace uses `gcs.mu` properly: never taken recursively,
never released when not held, and not held any more when the trace (and so
the operation) ends. -/
def scopeOk : Bool → List LockEvent → Bool
  | held, [] => !held
  | held, .muLock :: r => !held && scopeOk true r
  | held, .muUnlock :: r => held && scopeOk false r
  | held, _ :: r => scopeOk held r

/-- Models `GCS.Load(ctx, key)`: map the key, download; a backend error that
`errs.Is`-matches `gcsops.ErrNotFound` is normalized to
`Error.Wrap(fs.ErrNotExist)`, any other download error is wrapped as-is; on
success return `io.ReadAll(rc)` with the deferred
`err = Error.Wrap(errs.Combine(err, rc.Close()))`.  Returns the Go pair
(bytes, error). -/
def GCS.load (g : GCS) (key : List Char) : List Nat × Option GoErr :=
  let k := g.pfx ++ key
  match g.client.download g.bucket k with
  | .error e =>
      if isNotFound e then ([], some (.wrapped .errNotExist))
      else ([], some (.wrapped e))
  | .ok rc =>
      match rc.readAll with
      | .ok data => (data, wrapOpt (combineOpt none rc.closeErr))
      | .error re => ([], wrapOpt (combineOpt (some re) rc.closeErr))

/-- Models `GCS.Delete(ctx, key)`: map the key, delete; a not-found backend
error is normalized to `Error.Wrap(fs.ErrNotExist)`; anything else (a nil
error included) is returned through `Error.Wrap`. -/
def GCS.deleteOp (g : GCS) (key : List Char) : Option GoErr :=
  let k := g.pfx ++ key
  match g.client.delete g.bucket k with
  | some e =>
      if isNotFound e then some (.wrapped .errNotExist)
      else some (.wrapped e)
  | none => none

/-- Models `GCS.Store(ctx, key, value)`: map the key and return the wrapped
result of `client.Upload`. -/
def GCS.storeOp (g : GCS) (key : List Char) (value : List Nat) : Option GoErr :=
  wrapOpt (g.client.upload g.bucket (g.pfx ++ key) value)

/-- The `certmagic.KeyInfo` struct as populated by `GCS.Stat` (the modified
time is the abstract value produced by the time parser). -/
structure KeyInfo where
  key : List Char
  isTerminal : Bool
  modified : Nat
  size : Int
deriving DecidableEq

/-- The zero `certmagic.KeyInfo`, as returned on `Stat` error paths before
any field is populated. -/
def KeyInfo.zero : KeyInfo := ⟨[], false, 0, 0⟩

/-- Decimal value of one digit character, `none` for a non-digit
(the only characters `strconv.ParseInt(s, 10, 64)` accepts). -/
def digitVal (c : Char) : Option Nat :=
  if '0' ≤ c ∧ c ≤ '9' then some (c.toNat - '0'.toNat) else none

/-- Accumulates the base-10 value of a digit string, failing on the first
non-digit. -/
def digitsToNatAux : Nat → List Char → Option Nat
  | acc, [] => some acc
  | acc, c :: r =>
      match digitVal c with
      | none => none
      | some d => digitsToNatAux (acc * 10 + d) r

/-- Models `strconv.ParseInt(s, 10, 64)`: optional sign, then at least one
digit, all base-10, with an int64 range check; empty input, a non-digit or
overflow are errors. -/
def parseInt10 (s : List Char) : Except GoErr Int :=
  let p : Bool × List Char :=
    match s with
    | '+' :: r => (false, r)
    | '-' :: r => (true, r)
    | r => (false, r)
  match p.2 with
  | [] => .error (.other ("invalid syntax".toList))
  | ds =>
      match digitsToNatAux 0 ds with
      | none => .error (.other ("invalid syntax".toList))
      | some n =>
          let v : Int := if p.1 then -(n : Int) else (n : Int)
          if v < -(2 ^ 63) ∨ (2 ^ 63 - 1) < v then
            .error (.other ("value out of range".toList))
          else .ok v

/-- Models `GCS.Stat(ctx, key)`.  `p1123` is the oracle for Go's
`time.Parse(time.RFC1123, s)` (external standard library code): it returns
the parsed time as an abstract value, or the parse error.  Stat maps the
key, asks the backend for headers (not-found normalized as in `Load`), then
populates `Key` with the mapped key and `IsTerminal` with `true`, parses
`Modified` from the "last-modified" header and `Size` from the
"content-length" header; either parse failure returns the wrapped error
with the remaining fields unpopulated.  Returns the Go pair
(`certmagic.KeyInfo`, error). -/
def GCS.statOp (g : GCS) (p1123 : List Char → Except GoErr Nat)
    (key : List Char) : KeyInfo × Option GoErr :=
  let k := g.pfx ++ key
  match g.client.statHdrs g.bucket k with
  | .error e =>
      if isNotFound e then (KeyInfo.zero, some (.wrapped .errNotExist))
      else (KeyInfo.zero, some (.wrapped e))
  | .ok hdrs =>
      let ki1 : KeyInfo := { KeyInfo.zero with key := k, isTerminal := true }
      match p1123 (hdrs ("last-modified".toList)) with
      | .error e => (ki1, some (.wrapped e))
      | .ok t =>
          let ki2 : KeyInfo := { ki1 with modified := t }
          match parseInt10 (hdrs ("content-length".toList)) with
          | .error e => (ki2, some (.wrapped e))
          | .ok n => ({ ki2 with size := n }, none)

/-- State of a backing store that faithfully persists uploads: the objects
currently stored, per bucket and physical key. -/
def FaithfulObjects : Type := List Char → List Char → Option (List Nat)

/-- Insertion of one object into the faithful store's state. -/
def storeUpdate (objs : FaithfulObjects) (b k : List Char) (v : List Nat) :
    FaithfulObjects :=
  fun b2 k2 => if b2 = b ∧ k2 = k then some v else objs b2 k2

/-- The `gcsops.Client` induced by a faithful store state: `Download`
returns the stored bytes in full (with a clean close) or the not-found
sentinel; `Upload` succeeds; `Delete` and `Stat` report not-found for
absent keys. -/
def faithfulClient (objs : FaithfulObjects) : Client where
  download := fun b k =>
    match objs b k with
    | some data => .ok { readAll := .ok data, closeErr := none }
    | none => .error .notFound
  delete := fun b k =>
    match objs b k with
    | some _ => none
    | none => some .notFound
  statHdrs := fun _ _ => .error .notFound
  upload := fun _ _ _ => none
  testPermissions := fun _ => none

/-- Models `GCS.Store(ctx, key, value)` run against a backing store that
faithfully persists uploads (the assumption of the round-trip property):
the single `client.Upload(ctx, nil, bucket, prefix+key, value)` call
records the payload at the mapped key and returns nil, which `Store` wraps. -/
def GCS.storeFaithful (bucket pfx : List Char) (objs : FaithfulObjects)
    (key : List Char) (value : List Nat) : FaithfulObjects × Option GoErr :=
  (storeUpdate objs bucket (pfx ++ key) value, wrapOpt none)

/-- Whether a string ends in exactly one '/' (one trailing separator and the
character before it, if any, not a separator). -/
def endsInExactlyOneSlash (cs : List Char) : Bool :=
  match cs.reverse with
  | '/' :: '/' :: _ => false
  | '/' :: _ => true
  | _ => false

/-- Whether a string ends in at least two '/' characters. -/
def endsInTwoSlashes (cs : List Char) : Bool :=
  match cs.reverse with
  | '/' :: '/' :: _ => true
  | _ => false

/-- A concrete backend client for instantiating theorems: every data
operation reports the not-found sentinel, permissions probe passes. -/
def clientEx : Client where
  download := fun _ _ => .error .notFound
  delete := fun _ _ => some .notFound
  statHdrs := fun _ _ => .error .notFound
  upload := fun _ _ _ => none
  testPermissions := fun _ => none

/-- A concrete adapter over `clientEx` with bucket "b" and prefix "p/". -/
def gEx : GCS := { bucket := "b".toList, pfx := "p/".toList, client := clientEx }

/-- A concrete lock environment in which every external call succeeds. -/
def envEx : LockEnv where
  constructErr := fun _ => none
  acquireRes := fun _ => none
  releaseRes := fun _ => none

/-- A concrete lock environment in which `gcslock.NewMutex` always fails. -/
def envFailEx : LockEnv where
  constructErr := fun _ => some (.other ("boom".toList))
  acquireRes := fun _ => none
  releaseRes := fun _ => none

/-- The empty lock-handle cache (the state right after `NewGCS`). -/
def stEx : LockCache := { locks := fun _ => none, nextId := 0 }

/-- A lock-handle cache holding one entry: name "a" bound to instance 7. -/
def stOneEx : LockCache :=
  { locks := fun n => if n = "a".toList then some 7 else none, nextId := 8 }

/-- Concrete response headers for instantiating the `Stat` theorems. -/
def hdrsEx : List Char → List Char :=
  fun h =>
    if h = "last-modified".toList then "LM".toList
    else if h = "content-length".toList then "42".toList
    else []

/-- A concrete client whose metadata probe succeeds with `hdrsEx`. -/
def clientStatEx : Client :=
  { clientEx with statHdrs := fun _ _ => .ok hdrsEx }

/-- A concrete adapter over `clientStatEx`. -/
def gStatEx : GCS :=
  { bucket := "b".toList, pfx := "p/".toList, client := clientStatEx }

/-- A concrete RFC1123 time-parser oracle: parses exactly the string "LM"
(to the abstract instant 99) and rejects everything else. -/
def p1123Ex : List Char → Except GoErr Nat :=
  fun s => if s = "LM".toList then .ok 99 else .error (.other ("parse".toList))

/-- A concrete client whose permissions probe is denied. -/
def clientProbeFailEx : Client :=
  { clientEx with testPermissions := fun _ => some (.other ("denied".toList)) }

/-- Helper: `strings.Cut` reports a separator found exactly when the path
contains one. -/
theorem cutSlash_found_iff (cs : List Char) :
    (cutSlash cs).2.2 = true ↔ '/' ∈ cs := by
  induction cs with
  | nil => simp [cutSlash]
  | cons c r ih =>
      by_cases hc : c = '/'
      · subst hc; simp [cutSlash]
      · simp [cutSlash, hc, ih, Ne.symm hc]

/-- Helper: when no separator is found, the after-part of `strings.Cut` is
empty. -/
theorem cutSlash_rest_of_not_found (cs : List Char)
    (h : (cutSlash cs).2.2 = false) : (cutSlash cs).2.1 = [] := by
  induction cs with
  | nil => simp [cutSlash]
  | cons c r ih =>
      by_cases hc : c = '/'
      · subst hc; simp [cutSlash] at h
      · simp [cutSlash, hc] at h ⊢; exact ih h

/-- Helper: the stored prefix is empty exactly when the construction path
contains no separator. -/
theorem pfx_empty_iff (path : List Char) :
    (bucketAndPfx path).2 = [] ↔ '/' ∉ path := by
  by_cases hf : (cutSlash path).2.2 = true
  · simp [bucketAndPfx, hf, (cutSlash_found_iff path).1 hf]
  · have hf2 : (cutSlash path).2.2 = false := by
      cases h : (cutSlash path).2.2 <;> simp_all
    have hnm : '/' ∉ path := fun h => hf ((cutSlash_found_iff path).2 h)
    simp [bucketAndPfx, hf2, cutSlash_rest_of_not_found path hf2, hnm]

/-- Helper: if a string does not end in two separators, then after
`strings.TrimSuffix(s, "/")` it does not end in a separator at all. -/
theorem trimSuffixSlash_no_slash_end (cs : List Char)
    (h : endsInTwoSlashes cs = false) :
    (trimSuffixSlash cs).reverse.head? ≠ some '/' := by
  unfold trimSuffixSlash
  unfold endsInTwoSlashes at h
  split
  · rename_i r heq
    rw [List.reverse_reverse]
    rw [heq] at h
    cases r with
    | nil => simp
    | cons c2 rr =>
        by_cases hc2 : c2 = '/'
        · subst hc2; simp at h
        · simp [hc2]
  · rename_i hne
    cases hrev : cs.reverse with
    | nil => simp
    | cons c2 rr =>
        by_cases hc2 : c2 = '/'
        · subst hc2; exact (hne rr hrev).elim
        · simp [hc2]

/-- Helper: appending one separator to a string that does not end in one
yields a string ending in exactly one separator. -/
theorem endsOne_of_append_slash (t : List Char)
    (h : t.reverse.head? ≠ some '/') :
    endsInExactlyOneSlash (t ++ ['/']) = true := by
  unfold endsInExactlyOneSlash
  rw [List.reverse_append]
  cases ht : t.reverse with
  | nil => simp
  | cons c2 rr =>
      rw [ht] at h
      by_cases hc2 : c2 = '/'
      · subst hc2; simp at h
      · simp [hc2]

/-- Helper: `strings.Cut` on `b + "/" + rest` with no separator in `b`
splits exactly there. -/
theorem cutSlash_append_no_slash (b rest : List Char) (hb : '/' ∉ b) :
    cutSlash (b ++ '/' :: rest) = (b, rest, true) := by
  induction b with
  | nil => simp [cutSlash]
  | cons c bb ih =>
      have hc : ¬ (c = '/') := by
        rintro rfl; exact hb (List.mem_cons_self _ _)
      have hbb : '/' ∉ bb := fun h => hb (List.mem_cons_of_mem c h)
      simp [cutSlash, hc, ih hbb]

/-- C5 counterexample: for the construction path "b/p//" the stored prefix
is "p//", which ends in two separators — not exactly one — so the claimed
"never more than one trailing separator" invariant fails as stated
(`strings.TrimSuffix` removes at most one separator before one is appended). -/
theorem pfx_one_slash_cex :
    (bucketAndPfx ("b/p//".toList)).2 = "p//".toList ∧
    endsInExactlyOneSlash (bucketAndPfx ("b/p//".toList)).2 = false := by
  decide

/-- C5 (amended): the stored prefix is empty exactly when the construction
path contains no separator; otherwise it ends in a trailing separator, and
in exactly one whenever the path's post-separator part does not itself end
in two or more separators (`TrimSuffix` removes only one, so extra trailing
separators in the given prefix are preserved). -/
theorem pfx_trailing_slash (path : List Char) :
    ((bucketAndPfx path).2 = [] ↔ '/' ∉ path) ∧
    ('/' ∈ path → ((bucketAndPfx path).2).reverse.head? = some '/') ∧
    ('/' ∈ path → endsInTwoSlashes (cutSlash path).2.1 = false →
      endsInExactlyOneSlash (bucketAndPfx path).2 = true) := by
  refine ⟨pfx_empty_iff path, ?_, ?_⟩
  · intro hmem
    have hf : (cutSlash path).2.2 = true := (cutSlash_found_iff path).2 hmem
    simp [bucketAndPfx, hf, List.reverse_append]
  · intro hmem h2
    have hf : (cutSlash path).2.2 = true := (cutSlash_found_iff path).2 hmem
    simp only [bucketAndPfx, hf, if_true]
    exact endsOne_of_append_slash _ (trimSuffixSlash_no_slash_end _ h2)

/-- Witness for the amended C5 theorem at the concrete path "b/p". -/
theorem pfx_trailing_slash_witness :
    ((bucketAndPfx ("b/p".toList)).2).reverse.head? = some '/' ∧
    endsInExactlyOneSlash (bucketAndPfx ("b/p".toList)).2 = true :=
  ⟨(pfx_trailing_slash ("b/p".toList)).2.1 (by decide),
   (pfx_trailing_slash ("b/p".toList)).2.2 (by decide) (by decide)⟩

/-- C10: a construction path whose only separator is its final character
yields the one-character prefix "/" (never the empty prefix), and an empty
prefix arises only from a path without any separator. -/
theorem slash_final_gives_slash_pfx (b : List Char) (hb : '/' ∉ b) :
    (bucketAndPfx (b ++ ['/'])).2 = ['/'] ∧
    (∀ path : List Char, (bucketAndPfx path).2 = [] → '/' ∉ path) := by
  constructor
  · have hc : cutSlash (b ++ ['/']) = (b, [], true) :=
      cutSlash_append_no_slash b [] hb
    have ht : trimSuffixSlash ([] : List Char) = [] := rfl
    simp [bucketAndPfx, hc, ht]
  · intro path h; exact (pfx_empty_iff path).1 h

/-- Witness for C10 at the concrete path "bucket/". -/
theorem slash_final_gives_slash_pfx_witness :
    (bucketAndPfx ("bucket".toList ++ ['/'])).2 = ['/'] :=
  (slash_final_gives_slash_pfx ("bucket".toList) (by decide)).1


/-- C1: the lock-handle cache keeps at most one mutex instance per name for
the process lifetime.  A `Lock(n)` that finds no cache entry makes exactly
one `gcslock.NewMutex` call and stores exactly the fresh instance under `n`
(other names untouched); a later `Lock(n)` finds the stored instance,
constructs nothing, reuses that same instance for acquire and leaves the
cache unchanged; a `Lock(n)` whose construction fails returns the wrapped
construction error and leaves no cache entry for `n`; and no `Lock` or
`Unlock` call ever removes an existing entry. -/
theorem lock_cache_single_instance (g : GCS) (env : LockEnv) (st : LockCache)
    (name : List Char) :
    (st.locks name = none → env.constructErr (g.pfx ++ name) = none →
      (GCS.lockOp g env st name).1 =
        [.muLock, .newMutex (g.pfx ++ name), .muUnlock, .acquire st.nextId] ∧
      (GCS.lockOp g env st name).2.1.locks name = some st.nextId ∧
      (∀ n, n ≠ name → (GCS.lockOp g env st name).2.1.locks n = st.locks n)) ∧
    (∀ id, st.locks name = some id →
      (GCS.lockOp g env st name).1 = [.muLock, .muUnlock, .acquire id] ∧
      (GCS.lockOp g env st name).2.1 = st ∧
      (GCS.lockOp g env st name).2.2 = wrapOpt (env.acquireRes id)) ∧
    (∀ e, st.locks name = none → env.constructErr (g.pfx ++ name) = some e →
      (GCS.lockOp g env st name).2.2 = some (.wrapped e) ∧
      (GCS.lockOp g env st name).2.1.locks name = none) ∧
    (∀ n id, st.locks n = some id →
      (GCS.lockOp g env st name).2.1.locks n = some id ∧
      (unlockOp env st name).2.1.locks n = some id) := by
  refine ⟨?_, ?_, ?_, ?_⟩
  · intro h hc
    refine ⟨by simp [GCS.lockOp, h, hc], by simp [GCS.lockOp, h, hc], ?_⟩
    intro n hn
    simp [GCS.lockOp, h, hc, hn]
  · intro id h
    simp [GCS.lockOp, h]
  · intro e h hc
    simp [GCS.lockOp, h, hc]
  · intro n id hn
    constructor
    · cases h : st.locks name with
      | some id2 => simp [GCS.lockOp, h, hn]
      | none =>
          cases hc : env.constructErr (g.pfx ++ name) with
          | some e => simp [GCS.lockOp, h, hc, hn]
          | none =>
              by_cases hne : n = name
              · subst hne; rw [hn] at h; exact absurd h (by simp)
              · simp [GCS.lockOp, h, hc, hne, hn]
    · cases h : st.locks name with
      | some id2 => simp [unlockOp, h, hn]
      | none => simp [unlockOp, h, hn]

/-- Witness for C1: on the empty cache, `Lock "a"` stores instance 0; with a
failing constructor it stores nothing; with "a" bound to instance 7 the
trace reuses instance 7 without construction. -/
theorem lock_cache_single_instance_witness :
    (GCS.lockOp gEx envEx stEx ("a".toList)).2.1.locks ("a".toList) = some 0 ∧
    (GCS.lockOp gEx envFailEx stEx ("a".toList)).2.1.locks ("a".toList) = none ∧
    (GCS.lockOp gEx envEx stOneEx ("a".toList)).1 =
      [.muLock, .muUnlock, .acquire 7] :=
  ⟨((lock_cache_single_instance gEx envEx stEx ("a".toList)).1 rfl rfl).2.1,
   ((lock_cache_single_instance gEx envFailEx stEx ("a".toList)).2.2.1
      (.other ("boom".toList)) rfl rfl).2,
   ((lock_cache_single_instance gEx envEx stOneEx ("a".toList)).2.1 7 (by decide)).1⟩

/-- C2 counterexample: on a cache miss, `Lock` calls `gcslock.NewMutex`
while the cache's exclusive section is held (the call sits between `mu.Lock`
and `mu.Unlock`), so the claim that no external-service call — mutex
construction included — happens while the section is held is false as
stated: at this concrete input the list of external calls made while the
section is held is the one-element construction call, not the empty list. -/
theorem lock_ctor_inside_section_cex :
    extWhileHeld false (GCS.lockOp gEx envEx stEx ("a".toList)).1 =
      [LockEvent.newMutex ("p/a".toList)] := by
  decide

/-- C2 (amended): the trace of `Lock` always has one of three shapes — hit,
miss with successful construction, miss with failed construction — and in
all of them the exclusive section is released (`mu.Unlock`) before acquire
is invoked, so acquire never happens while the section is held; mutex
construction, however, does happen while the section is held on a cache
miss. -/
theorem lock_acquire_outside_section (g : GCS) (env : LockEnv) (st : LockCache)
    (name : List Char) :
    (∃ id, (GCS.lockOp g env st name).1 = [.muLock, .muUnlock, .acquire id]) ∨
    (∃ id, (GCS.lockOp g env st name).1 =
        [.muLock, .newMutex (g.pfx ++ name), .muUnlock, .acquire id]) ∨
    (GCS.lockOp g env st name).1 =
        [.muLock, .newMutex (g.pfx ++ name), .muUnlock] := by
  cases h : st.locks name with
  | some id => exact Or.inl ⟨id, by simp [GCS.lockOp, h]⟩
  | none =>
      cases hc : env.constructErr (g.pfx ++ name) with
      | some e => exact Or.inr (Or.inr (by simp [GCS.lockOp, h, hc]))
      | none => exact Or.inr (Or.inl ⟨st.nextId, by simp [GCS.lockOp, h, hc]⟩)

/-- C4: `Unlock(n)` for a name with no cache entry fails with the distinct
lock-not-cached error `Error.New("mutex for %s not exists", n)` — which is
not a wrapped backend error — calls release on no mutex, and leaves the
cache unchanged; if an entry exists, `Unlock(n)` delegates to that
instance's release and returns its wrapped error. -/
theorem unlock_not_cached (env : LockEnv) (st : LockCache) (name : List Char) :
    (st.locks name = none →
      (unlockOp env st name).2.2 =
        some (.newMsg ("mutex for ".toList ++ name ++ " not exists".toList)) ∧
      (∀ e, (unlockOp env st name).2.2 ≠ some (.wrapped e)) ∧
      (∀ id, LockEvent.release id ∉ (unlockOp env st name).1) ∧
      (unlockOp env st name).2.1 = st) ∧
    (∀ id, st.locks name = some id →
      LockEvent.release id ∈ (unlockOp env st name).1 ∧
      (unlockOp env st name).2.2 = wrapOpt (env.releaseRes id)) := by
  constructor
  · intro h
    refine ⟨by simp [unlockOp, h], ?_, ?_, by simp [unlockOp, h]⟩
    · intro e; simp [unlockOp, h]
    · intro id; simp [unlockOp, h]
  · intro id h
    simp [unlockOp, h]

/-- Witness for C4: on the empty cache, `Unlock "a"` returns the
lock-not-cached error; with "a" bound to instance 7, it calls release on
instance 7. -/
theorem unlock_not_cached_witness :
    (unlockOp envEx stEx ("a".toList)).2.2 =
      some (.newMsg ("mutex for ".toList ++ "a".toList ++ " not exists".toList)) ∧
    LockEvent.release 7 ∈ (unlockOp envEx stOneEx ("a".toList)).1 :=
  ⟨((unlock_not_cached envEx stEx ("a".toList)).1 rfl).1,
   ((unlock_not_cached envEx stOneEx ("a".toList)).2 7 (by decide)).1⟩

/-- C9: every return path of `Lock` and `Unlock` uses the cache's exclusive
section in a properly scoped way — `mu` is never taken recursively, never
released when not held, and is no longer held when the operation returns —
whether the lookup hits, misses with successful construction, misses with
failed construction, or the `Unlock` entry is absent. -/
theorem mu_released_all_paths (g : GCS) (env : LockEnv) (st : LockCache)
    (name : List Char) :
    scopeOk false (GCS.lockOp g env st name).1 = true ∧
    scopeOk false (unlockOp env st name).1 = true := by
  constructor
  · cases h : st.locks name with
    | some id => simp [GCS.lockOp, h, scopeOk]
    | none =>
        cases hc : env.constructErr (g.pfx ++ name) with
        | some e => simp [GCS.lockOp, h, hc, scopeOk]
        | none => simp [GCS.lockOp, h, hc, scopeOk]
  · cases h : st.locks name with
    | some id => simp [unlockOp, h, scopeOk]
    | none => simp [unlockOp, h, scopeOk]


/-- C3: when the backend reports its distinguishable not-found condition,
`Load`, `Delete` and `Stat` all return the same normalized
`Error.Wrap(fs.ErrNotExist)` rather than the backend error, and any other
backend failure is returned wrapped, not replaced. -/
theorem notfound_normalized (g : GCS) (k : List Char) (e : GoErr)
    (p1123 : List Char → Except GoErr Nat) :
    (g.client.download g.bucket (g.pfx ++ k) = .error e →
      GCS.load g k =
        ([], some (if isNotFound e then GoErr.wrapped .errNotExist
                   else GoErr.wrapped e))) ∧
    (g.client.delete g.bucket (g.pfx ++ k) = some e →
      GCS.deleteOp g k =
        some (if isNotFound e then GoErr.wrapped .errNotExist
              else GoErr.wrapped e)) ∧
    (g.client.statHdrs g.bucket (g.pfx ++ k) = .error e →
      GCS.statOp g p1123 k =
        (KeyInfo.zero,
         some (if isNotFound e then GoErr.wrapped .errNotExist
               else GoErr.wrapped e))) := by
  refine ⟨?_, ?_, ?_⟩ <;> intro h
  · by_cases hn : isNotFound e <;> simp [GCS.load, h, hn]
  · by_cases hn : isNotFound e <;> simp [GCS.deleteOp, h, hn]
  · by_cases hn : isNotFound e <;> simp [GCS.statOp, h, hn]

/-- Witness for C3: against a backend whose download, delete and stat all
report `gcsops.ErrNotFound`, all three operations return the wrapped
`fs.ErrNotExist`. -/
theorem notfound_normalized_witness :
    GCS.load gEx ("k".toList) = ([], some (.wrapped .errNotExist)) ∧
    GCS.deleteOp gEx ("k".toList) = some (.wrapped .errNotExist) ∧
    GCS.statOp gEx p1123Ex ("k".toList) =
      (KeyInfo.zero, some (.wrapped .errNotExist)) :=
  ⟨by simpa using (notfound_normalized gEx ("k".toList) .notFound p1123Ex).1 rfl,
   by simpa using (notfound_normalized gEx ("k".toList) .notFound p1123Ex).2.1 rfl,
   by simpa using (notfound_normalized gEx ("k".toList) .notFound p1123Ex).2.2 rfl⟩

/-- C6: against a backing store that faithfully persists uploads,
`Store(k, p)` succeeds and a `Load(k)` with no intervening operation on `k`
succeeds and returns exactly `p`. -/
theorem store_load_roundtrip (objs : FaithfulObjects)
    (bucket pfx key : List Char) (p : List Nat) :
    (GCS.storeFaithful bucket pfx objs key p).2 = none ∧
    GCS.load { bucket := bucket, pfx := pfx,
               client := faithfulClient (GCS.storeFaithful bucket pfx objs key p).1 }
        key = (p, none) := by
  refine ⟨rfl, ?_⟩
  simp [GCS.load, GCS.storeFaithful, faithfulClient, storeUpdate, wrapOpt, combineOpt]

/-- C7: when the backend metadata probe succeeds, `Stat` returns metadata
with `Key` equal to the mapped key (prefix + key), `IsTerminal` always
true, `Modified` the result of the RFC1123 time parser applied to the
"last-modified" header, and `Size` parsed from the "content-length" header
as a base-10 integer; a parse failure of either field makes `Stat` return
the wrapped parse error rather than a defaulted value. -/
theorem stat_metadata (g : GCS) (p1123 : List Char → Except GoErr Nat)
    (key : List Char) (hdrs : List Char → List Char)
    (hs : g.client.statHdrs g.bucket (g.pfx ++ key) = .ok hdrs) :
    (∀ t n, p1123 (hdrs ("last-modified".toList)) = .ok t →
      parseInt10 (hdrs ("content-length".toList)) = .ok n →
      GCS.statOp g p1123 key =
        ({ key := g.pfx ++ key, isTerminal := true, modified := t, size := n },
         none)) ∧
    (∀ e, p1123 (hdrs ("last-modified".toList)) = .error e →
      GCS.statOp g p1123 key =
        ({ key := g.pfx ++ key, isTerminal := true, modified := 0, size := 0 },
         some (.wrapped e))) ∧
    (∀ t e, p1123 (hdrs ("last-modified".toList)) = .ok t →
      parseInt10 (hdrs ("content-length".toList)) = .error e →
      GCS.statOp g p1123 key =
        ({ key := g.pfx ++ key, isTerminal := true, modified := t, size := 0 },
         some (.wrapped e))) := by
  refine ⟨?_, ?_, ?_⟩
  · intro t n h1 h2
    simp at h1 h2
    simp [GCS.statOp, hs, h1, h2, KeyInfo.zero]
  · intro e h1
    simp at h1
    simp [GCS.statOp, hs, h1, KeyInfo.zero]
  · intro t e h1 h2
    simp at h1 h2
    simp [GCS.statOp, hs, h1, h2, KeyInfo.zero]

/-- Witness for C7: against a backend whose headers carry a parsable time
and the length "42", `Stat "k"` returns the fully populated metadata. -/
theorem stat_metadata_witness :
    GCS.statOp gStatEx p1123Ex ("k".toList) =
      ({ key := "p/".toList ++ "k".toList, isTerminal := true,
         modified := 99, size := 42 }, none) :=
  (stat_metadata gStatEx p1123Ex ("k".toList) hdrsEx rfl).1 99 42
    (by decide) (by decide)

/-- C8: `NewGCS` fails with a wrapped error when the client cannot be built
from the credentials (making no further external call) or when the
permissions probe against the bucket fails, returning no adapter in either
case; an adapter (with the computed bucket, prefix and client) is returned
only when both steps succeed. -/
theorem newGCS_fail_fast (path : List Char) (nc : Except GoErr Client) :
    (∀ e, nc = .error e →
      newGCS path nc = ([InitEvent.clientConstruct], .error (.wrapped e))) ∧
    (∀ c e, nc = .ok c →
      c.testPermissions (bucketAndPfx path).1 = some e →
      newGCS path nc =
        ([InitEvent.clientConstruct, InitEvent.permProbe (bucketAndPfx path).1],
         .error (.wrapped e))) ∧
    (∀ c, nc = .ok c →
      c.testPermissions (bucketAndPfx path).1 = none →
      newGCS path nc =
        ([InitEvent.clientConstruct, InitEvent.permProbe (bucketAndPfx path).1],
         .ok { bucket := (bucketAndPfx path).1, pfx := (bucketAndPfx path).2,
               client := c })) := by
  refine ⟨?_, ?_, ?_⟩
  · intro e h; subst h; simp [newGCS]
  · intro c e h hp; subst h; simp [newGCS, hp]
  · intro c h hp; subst h; simp [newGCS, hp]

/-- Witness for C8: a failing client construction stops before the probe;
a denied permissions probe fails construction with the wrapped error. -/
theorem newGCS_fail_fast_witness :
    newGCS ("b/p".toList) (.error (.other ("cred".toList))) =
      ([InitEvent.clientConstruct], .error (.wrapped (.other ("cred".toList)))) ∧
    newGCS ("b/p".toList) (.ok clientProbeFailEx) =
      ([InitEvent.clientConstruct,
        InitEvent.permProbe (bucketAndPfx ("b/p".toList)).1],
       .error (.wrapped (.other ("denied".toList)))) :=
  ⟨(newGCS_fail_fast ("b/p".toList) (.error (.other ("cred".toList)))).1
     (.other ("cred".toList)) rfl,
   (newGCS_fail_fast ("b/p".toList) (.ok clientProbeFailEx)).2.1
     clientProbeFailEx (.other ("denied".toList)) rfl rfl⟩

end Certstorage
